import Mathlib

/-
  Shallow embedding of the nameserver-forward repository
  (src/client.js and src/index.js).

  The DNS wire codec (Packet.serialize / Packet.parse), the address
  lookup (dns.lookup) and the network are external collaborators; they
  appear as parameters and as event sequences supplied by an
  environment.  Everything else — the timeout selection, the UDP phase,
  the truncation-triggered TCP escalation, the stream framing
  reassembler of getTcpSocket, the forwarder fallback and its merge —
  is translated from the source.  A ClientTrace records the observable
  side effects (serialize calls, sends, connection attempts, socket
  close / end calls) of one exchange.
-/

namespace NSF

/-- A decoded DNS message as the client observes it: transaction id,
truncated flag, rcode and the three record sequences (resource records
are opaque, modelled as Nat). -/
structure Packet where
  id : Nat
  truncated : Bool
  rcode : Nat
  answer : List Nat
  authority : List Nat
  additional : List Nat
  deriving DecidableEq, Repr

/-- A JavaScript Error value, identified by its message string. -/
structure JsError where
  message : String
  deriving DecidableEq, Repr

/-- The value of `options.timeout` as classified by `Number.isInteger`
(src/client.js line 88): the property is missing, is an integer (any
integer — the source does not require positivity), or is some other
value for which `Number.isInteger` returns false. -/
inductive TimeoutField where
  | missing
  | int (i : Int)
  | notInteger
  deriving DecidableEq, Repr

/-- src/client.js lines 84-88: `options` being null/undefined is
replaced by `{}`; the effective timeout is `options.timeout` when
`Number.isInteger(options.timeout)` and 3000 otherwise. -/
def effectiveTimeout : Option TimeoutField → Int
  | none => 3000
  | some TimeoutField.missing => 3000
  | some TimeoutField.notInteger => 3000
  | some (TimeoutField.int i) => i

/-- One event observed during the UDP phase (src/client.js lines
105-128), in arrival order: an inbound datagram (given as the result of
`Packet.parse`, `none` when parsing throws), the timer firing, or the
send callback reporting an error. -/
inductive UdpEvent where
  | datagram (d : Option Packet)
  | timerFire
  | sendError (e : JsError)
  deriving DecidableEq, Repr

/-- How the UDP-phase promise ends: resolved with a packet, rejected
with an error, an exception escaping the message handler uncaught
(there is no try/catch around `Packet.parse` on line 113), or still
pending after all supplied events. -/
inductive UdpOutcome where
  | resolved (r : Packet)
  | rejected (e : JsError)
  | uncaughtException
  | pending
  deriving DecidableEq, Repr

/-- Side effects of the UDP phase: whether `socket.close()` ran and
whether `clearTimeout(t)` ran. -/
structure UdpTrace where
  socketClosed : Bool
  timerCleared : Bool
  deriving DecidableEq, Repr

/-- src/client.js lines 105-128.  A datagram is parsed; on a matching
id the timer is cleared, the socket closed and the promise resolved; a
non-matching id is ignored.  A parse failure is an uncaught throw from
the message handler: no later event is processed and the socket stays
open.  The timer closes the socket and rejects with Timeout; a send
error clears the timer, closes the socket and rejects. -/
def runUdp (requestId : Nat) : List UdpEvent → UdpOutcome × UdpTrace
  | [] => (UdpOutcome.pending, ⟨false, false⟩)
  | UdpEvent.datagram none :: _ => (UdpOutcome.uncaughtException, ⟨false, false⟩)
  | UdpEvent.datagram (some r) :: rest =>
      if r.id = requestId then (UdpOutcome.resolved r, ⟨true, true⟩)
      else runUdp requestId rest
  | UdpEvent.timerFire :: _ => (UdpOutcome.rejected ⟨"Timeout"⟩, ⟨true, false⟩)
  | UdpEvent.sendError e :: _ => (UdpOutcome.rejected e, ⟨true, true⟩)

/-- One event observed during the TCP phase after the connection is
established (src/client.js lines 26-68 and 139-160): a successfully
framed and parsed message (the `packet` event), a frame decode failure
(the catch on line 62), a connection-level error / end / close event,
or the TCP timer firing. -/
inductive TcpEvent where
  | framedPacket (r : Packet)
  | frameDecodeFailure
  | connError (e : JsError)
  | connEnd
  | connClosed
  | timerFire
  deriving DecidableEq, Repr

/-- How the TCP-phase promise (src/client.js lines 139-160) ends. -/
inductive TcpOutcome where
  | resolved (r : Packet)
  | rejected (e : JsError)
  | pending
  deriving DecidableEq, Repr

/-- Side effects of the TCP phase: whether `socket.end()` was ever
called on the connection and whether `clearTimeout(t)` ran. -/
structure TcpPhaseTrace where
  socketEnded : Bool
  timerCleared : Bool
  deriving DecidableEq, Repr

/-- src/client.js lines 139-160 together with the handlers installed by
getTcpSocket (lines 26-68), after the connection is established.  A
matching `packet` event clears the timer and resolves — without calling
`socket.end()`.  A non-matching packet is ignored.  A frame decode
failure or connection error calls `socket.end()` and calls reject on
the getTcpSocket promise, which is already settled, so the exchange
promise keeps waiting; `end` / `close` events likewise only reject the
settled promise.  The timer ends the socket and rejects with Timeout. -/
def runTcp (requestId : Nat) (ended : Bool) : List TcpEvent → TcpOutcome × TcpPhaseTrace
  | [] => (TcpOutcome.pending, ⟨ended, false⟩)
  | TcpEvent.framedPacket r :: rest =>
      if r.id = requestId then (TcpOutcome.resolved r, ⟨ended, true⟩)
      else runTcp requestId ended rest
  | TcpEvent.frameDecodeFailure :: rest => runTcp requestId true rest
  | TcpEvent.connError _ :: rest => runTcp requestId true rest
  | TcpEvent.connEnd :: rest => runTcp requestId ended rest
  | TcpEvent.connClosed :: rest => runTcp requestId ended rest
  | TcpEvent.timerFire :: _ => (TcpOutcome.rejected ⟨"Timeout"⟩, ⟨true, false⟩)

/-- State of the framing reassembler in getTcpSocket's data handler
(src/client.js lines 42-68): the accumulated byte buffer and the
`packetLength` variable (undefined is `none`). -/
structure StreamBuf where
  buffer : List Nat
  packetLength : Option Nat
  deriving DecidableEq, Repr

/-- `buffer.readUInt16BE()` at offset 0: big-endian 16-bit read of the
first two bytes.  Only called by onData when the buffer holds at least
two bytes. -/
def readUInt16BE : List Nat → Nat
  | a :: b :: _ => a * 256 + b
  | [a] => a * 256
  | [] => 0

/-- The 2-byte big-endian length header written before the serialized
query, src/client.js line 158:
`Buffer.from([(length & 0xff00) >> 8, length & 0x00ff])`. -/
def frameHeader (length : Nat) : List Nat :=
  [(length &&& 0xff00) >>> 8, length &&& 0x00ff]

/-- One `data` event of the reassembler, src/client.js lines 44-68.
The chunk is appended to the buffer; if `packetLength` is falsy
(undefined or 0) it is (re)read from the first two buffered bytes,
returning early when fewer than two bytes are buffered.  When at least
`packetLength + 2` bytes are buffered, the slice
`buffer.slice(2, packetLength + 2)` is emitted as a frame, the buffer
becomes `buffer.slice(packetLength)` — the source drops `packetLength`
bytes, not `packetLength + 2` — and `packetLength` is reset to
undefined.  At most one frame is emitted per data event (no loop in
the source). -/
def onData (s : StreamBuf) (b : List Nat) : StreamBuf × Option (List Nat) :=
  let buffer := s.buffer ++ b
  let pl : Option Nat :=
    match s.packetLength with
    | some n =>
        if n = 0 then (if buffer.length < 2 then none else some (readUInt16BE buffer))
        else some n
    | none => if buffer.length < 2 then none else some (readUInt16BE buffer)
  match pl with
  | none => (⟨buffer, s.packetLength⟩, none)
  | some packetLength =>
      if packetLength + 2 ≤ buffer.length then
        (⟨buffer.drop packetLength, none⟩, some ((buffer.drop 2).take packetLength))
      else
        (⟨buffer, some packetLength⟩, none)

/-- Feed a sequence of data chunks to the reassembler, collecting the
emitted frames in order. -/
def runData : StreamBuf → List (List Nat) → StreamBuf × List (List Nat)
  | s, [] => (s, [])
  | s, b :: rest =>
      let step := onData s b
      let restRun := runData step.1 rest
      (restRun.1, step.2.toList ++ restRun.2)

/-- The environment of one exchange: the dns.lookup result (address and
family), the UDP-phase events, the TCP connect outcome and the
TCP-phase events.  Addresses are opaque, modelled as Nat. -/
structure ClientEnv where
  lookup : Except JsError (Nat × Nat)
  udpEvents : List UdpEvent
  tcpConnect : Except JsError Unit
  tcpEvents : List TcpEvent

/-- How the whole exchange (the async function of src/client.js lines
82-161) ends: fulfilled with a response, rejected with an error, killed
by an uncaught exception, or never settling on the supplied events. -/
inductive ClientOutcome where
  | ok (r : Packet)
  | err (e : JsError)
  | uncaught
  | pending
  deriving DecidableEq, Repr

/-- True exactly on the rejected outcome. -/
def ClientOutcome.isErr : ClientOutcome → Bool
  | ClientOutcome.err _ => true
  | _ => false

/-- Observable side effects of one exchange: the timeout value used for
both timers, how many times Packet.serialize ran, the datagram sent
over UDP as (bytes, port, address), whether the UDP socket was closed,
every TCP connection attempt as (address, port), the bytes written on
the TCP connection in write order, and whether `socket.end()` was ever
called on the TCP connection. -/
structure ClientTrace where
  timeoutUsed : Int
  serializeCount : Nat
  udpSent : Option (List Nat × Nat × Nat)
  udpSocketClosed : Bool
  tcpConnects : List (Nat × Nat)
  tcpWrites : List (List Nat)
  tcpEnded : Bool
  deriving DecidableEq, Repr

/-- The exchange of src/client.js lines 82-161.  Resolve the host; on
failure reject.  Serialize the query once (line 101) and send it over
UDP.  If the UDP response is not truncated, return it with no TCP
activity.  On truncation, attempt exactly one TCP connection to the
resolved address and the same port (line 137); on connect failure
reject (the error handler has called `socket.end()`).  Otherwise
serialize the query a second time (line 155), write the 2-byte header
and the body, and run the TCP phase. -/
def clientModel (serialize : Packet → List Nat) (host : String) (port : Nat)
    (packet : Packet) (options : Option TimeoutField) (env : ClientEnv) :
    ClientOutcome × ClientTrace :=
  let timeout := effectiveTimeout options
  match env.lookup with
  | Except.error e =>
      (ClientOutcome.err e,
        { timeoutUsed := timeout, serializeCount := 0, udpSent := none,
          udpSocketClosed := false, tcpConnects := [], tcpWrites := [],
          tcpEnded := false })
  | Except.ok (address, _family) =>
      let requestId := packet.id
      let serializedPacket := serialize packet
      let udpRun := runUdp requestId env.udpEvents
      let baseTrace : ClientTrace :=
        { timeoutUsed := timeout, serializeCount := 1,
          udpSent := some (serializedPacket, port, address),
          udpSocketClosed := udpRun.2.socketClosed,
          tcpConnects := [], tcpWrites := [], tcpEnded := false }
      match udpRun.1 with
      | UdpOutcome.rejected e => (ClientOutcome.err e, baseTrace)
      | UdpOutcome.uncaughtException => (ClientOutcome.uncaught, baseTrace)
      | UdpOutcome.pending => (ClientOutcome.pending, baseTrace)
      | UdpOutcome.resolved response =>
          if response.truncated then
            match env.tcpConnect with
            | Except.error e =>
                (ClientOutcome.err e,
                  { baseTrace with tcpConnects := [(address, port)], tcpEnded := true })
            | Except.ok _ =>
                let buffer := serialize packet
                let tcpRun := runTcp requestId false env.tcpEvents
                let tcpTrace : ClientTrace :=
                  { baseTrace with
                    serializeCount := 2,
                    tcpConnects := [(address, port)],
                    tcpWrites := [frameHeader buffer.length, buffer],
                    tcpEnded := tcpRun.2.socketEnded }
                match tcpRun.1 with
                | TcpOutcome.resolved r => (ClientOutcome.ok r, tcpTrace)
                | TcpOutcome.rejected e => (ClientOutcome.err e, tcpTrace)
                | TcpOutcome.pending => (ClientOutcome.pending, tcpTrace)
          else
            (ClientOutcome.ok response, baseTrace)

/-- The caller's response context: `res.packet`, the mutable outgoing
response owned by the surrounding pipeline. -/
structure ResCtx where
  packet : Packet
  deriving DecidableEq, Repr

/-- The `success` function of src/index.js lines 13-25: overwrite the
rcode and push every answer / authority / additional record of the
result onto the corresponding sequence of the response packet. -/
def mergePacket (p result : Packet) : Packet :=
  { p with
    rcode := result.rcode,
    answer := p.answer ++ result.answer,
    authority := p.authority ++ result.authority,
    additional := p.additional ++ result.additional }

/-- How one forwarder invocation ends: the continuation `next()` called
after a successful merge, `next(e)` called on the error path, the
process killed by an uncaught exception in a client call, or an
exchange that never settles.  Both continuation forms carry the
response context as the pipeline sees it at that moment. -/
inductive ForwardOutcome where
  | nextOk (res : ResCtx)
  | nextErr (res : ResCtx) (e : JsError)
  | crashed
  | pending
  deriving DecidableEq, Repr

/-- `tryForward` of src/index.js lines 29-43 together with the
`.then(success).catch(...)` chain of lines 45-50: walk the server list
in order; every server is queried through the client at port 53 with
the request packet and no options argument; any client rejection moves
on to the next server; a fulfilled exchange merges into the response
and calls `next()`; an exhausted list calls `next(e)` with a
"No more servers to try" error, leaving the response untouched.  The
trace of every client call made is returned alongside. -/
def forwardGo (serialize : Packet → List Nat) (envs : String → ClientEnv)
    (req : Packet) (res : ResCtx) : List String → ForwardOutcome × List ClientTrace
  | [] => (ForwardOutcome.nextErr res ⟨"No more servers to try"⟩, [])
  | s :: rest =>
      let call := clientModel serialize s 53 req none (envs s)
      match call.1 with
      | ClientOutcome.ok result =>
          (ForwardOutcome.nextOk ⟨mergePacket res.packet result⟩, [call.2])
      | ClientOutcome.err _ =>
          let restRun := forwardGo serialize envs req res rest
          (restRun.1, call.2 :: restRun.2)
      | ClientOutcome.uncaught => (ForwardOutcome.crashed, [call.2])
      | ClientOutcome.pending => (ForwardOutcome.pending, [call.2])

/-- The constructor argument of src/index.js line 9: either a single
server string or an array of server strings. -/
inductive ForwardersArg where
  | single (s : String)
  | list (l : List String)

/-- src/index.js line 10: a non-array argument is wrapped into a
one-element list; an array is copied as is. -/
def normalizeForwarders : ForwardersArg → List String
  | ForwardersArg.single s => [s]
  | ForwardersArg.list l => l

/-- The middleware returned by src/index.js: one forwarding run over
the normalized server list. -/
def forward (serialize : Packet → List Nat) (envs : String → ClientEnv)
    (fwd : ForwardersArg) (req : Packet) (res : ResCtx) :
    ForwardOutcome × List ClientTrace :=
  forwardGo serialize envs req res (normalizeForwarders fwd)

/-- Every path of the exchange arms its timers with the value computed
by effectiveTimeout from the options argument. -/
theorem clientModel_timeoutUsed (serialize : Packet → List Nat) (host : String)
    (port : Nat) (packet : Packet) (options : Option TimeoutField) (env : ClientEnv) :
    (clientModel serialize host port packet options env).2.timeoutUsed
      = effectiveTimeout options := by
  simp only [clientModel]
  repeat' split
  all_goals rfl

/-- Every client call made by a forwarder run passes no options
argument, hence carries the default 3000 ms timeout. -/
theorem forwardGo_default_timeout (serialize : Packet → List Nat)
    (envs : String → ClientEnv) (req : Packet) (res : ResCtx) (l : List String) :
    ((forwardGo serialize envs req res l).2.all fun tr => tr.timeoutUsed == 3000) = true := by
  induction l with
  | nil => rfl
  | cons s rest ih =>
    have h := clientModel_timeoutUsed serialize s 53 req none (envs s)
    cases hc : (clientModel serialize s 53 req none (envs s)).1 <;>
      simp_all [forwardGo, effectiveTimeout]

/-- A server list on which every client call rejects is walked to the
end and yields the exhaustion error with the response untouched. -/
theorem forwardGo_exhausted (serialize : Packet → List Nat) (envs : String → ClientEnv)
    (req : Packet) (res : ResCtx) :
    ∀ fs : List String,
      (∀ s ∈ fs, (clientModel serialize s 53 req none (envs s)).1.isErr = true) →
      (forwardGo serialize envs req res fs).1
        = ForwardOutcome.nextErr res ⟨"No more servers to try"⟩
  | [], _ => rfl
  | s :: rest, h => by
      have hs := h s (by simp)
      have ih := forwardGo_exhausted serialize envs req res rest
        (fun t ht => h t (List.mem_cons_of_mem _ ht))
      cases hc : (clientModel serialize s 53 req none (envs s)).1 with
      | err e => simp only [forwardGo, hc]; exact ih
      | ok r => rw [hc] at hs; simp [ClientOutcome.isErr] at hs
      | uncaught => rw [hc] at hs; simp [ClientOutcome.isErr] at hs
      | pending => rw [hc] at hs; simp [ClientOutcome.isErr] at hs

/-- When every server before s rejects and s fulfils with result, the
run stops at s and merges result into the response. -/
theorem forwardGo_first_ok (serialize : Packet → List Nat) (envs : String → ClientEnv)
    (req : Packet) (res : ResCtx) (s : String) (post : List String) (result : Packet)
    (hs : (clientModel serialize s 53 req none (envs s)).1 = ClientOutcome.ok result) :
    ∀ pre : List String,
      (∀ t ∈ pre, (clientModel serialize t 53 req none (envs t)).1.isErr = true) →
      (forwardGo serialize envs req res (pre ++ s :: post)).1
        = ForwardOutcome.nextOk ⟨mergePacket res.packet result⟩
  | [], _ => by simp only [List.nil_append, forwardGo, hs]
  | t :: ptl, h => by
      have ht := h t (by simp)
      have ih := forwardGo_first_ok serialize envs req res s post result hs ptl
        (fun u hu => h u (List.mem_cons_of_mem _ hu))
      cases hc : (clientModel serialize t 53 req none (envs t)).1 with
      | err e => simp only [List.cons_append, forwardGo, hc]; exact ih
      | ok r => rw [hc] at ht; simp [ClientOutcome.isErr] at ht
      | uncaught => rw [hc] at ht; simp [ClientOutcome.isErr] at ht
      | pending => rw [hc] at ht; simp [ClientOutcome.isErr] at ht

/-- Claim C6: when every endpoint's exchange fails, the forwarder
invokes the pipeline's error continuation with the "No more servers to
try" error, and the caller's response object is returned exactly as it
was passed in — rcode, answer, authority and additional unmodified. -/
theorem c6_exhausted_error (serialize : Packet → List Nat) (envs : String → ClientEnv)
    (fs : List String) (req : Packet) (res : ResCtx)
    (h : ∀ s ∈ fs, (clientModel serialize s 53 req none (envs s)).1.isErr = true) :
    (forward serialize envs (ForwardersArg.list fs) req res).1
      = ForwardOutcome.nextErr res ⟨"No more servers to try"⟩ :=
  forwardGo_exhausted serialize envs req res fs h

theorem c6_witness :
    (forward (fun p => [p.id % 256])
      (fun _ => ⟨Except.error ⟨"lookup fail"⟩, [], Except.ok (), []⟩)
      (ForwardersArg.list ["a", "b"]) ⟨1, false, 0, [], [], []⟩
      ⟨⟨0, false, 2, [3], [4], [5]⟩⟩).1
      = ForwardOutcome.nextErr ⟨⟨0, false, 2, [3], [4], [5]⟩⟩ ⟨"No more servers to try"⟩ :=
  c6_exhausted_error (fun p => [p.id % 256])
    (fun _ => ⟨Except.error ⟨"lookup fail"⟩, [], Except.ok (), []⟩)
    ["a", "b"] ⟨1, false, 0, [], [], []⟩ ⟨⟨0, false, 2, [3], [4], [5]⟩⟩ (by decide)

/-- Claim C7: a successful forwarder run overwrites the response's
rcode with the successful result's rcode and appends — not replaces —
the result's answer, authority and additional sequences after the
entries already present on the response, preserving them and their
order. -/
theorem c7_success_merge (serialize : Packet → List Nat) (envs : String → ClientEnv)
    (req : Packet) (res : ResCtx) (pre : List String) (s : String) (post : List String)
    (result : Packet)
    (hpre : ∀ t ∈ pre, (clientModel serialize t 53 req none (envs t)).1.isErr = true)
    (hs : (clientModel serialize s 53 req none (envs s)).1 = ClientOutcome.ok result) :
    (forward serialize envs (ForwardersArg.list (pre ++ s :: post)) req res).1
      = ForwardOutcome.nextOk
          ⟨{ id := res.packet.id, truncated := res.packet.truncated,
             rcode := result.rcode,
             answer := res.packet.answer ++ result.answer,
             authority := res.packet.authority ++ result.authority,
             additional := res.packet.additional ++ result.additional }⟩ :=
  forwardGo_first_ok serialize envs req res s post result hs pre hpre

theorem c7_witness :
    (forward (fun p => [p.id % 256])
      (fun t => if t = "b" then
          ⟨Except.ok (10, 4),
            [UdpEvent.datagram (some ⟨1, false, 5, [9], [], []⟩)], Except.ok (), []⟩
        else ⟨Except.error ⟨"lookup fail"⟩, [], Except.ok (), []⟩)
      (ForwardersArg.list (["a"] ++ "b" :: [])) ⟨1, false, 0, [], [], []⟩
      ⟨⟨0, false, 2, [3], [4], [5]⟩⟩).1
      = ForwardOutcome.nextOk ⟨⟨0, false, 5, [3, 9], [4], [5]⟩⟩ :=
  c7_success_merge (fun p => [p.id % 256])
    (fun t => if t = "b" then
        ⟨Except.ok (10, 4),
          [UdpEvent.datagram (some ⟨1, false, 5, [9], [], []⟩)], Except.ok (), []⟩
      else ⟨Except.error ⟨"lookup fail"⟩, [], Except.ok (), []⟩)
    ⟨1, false, 0, [], [], []⟩ ⟨⟨0, false, 2, [3], [4], [5]⟩⟩
    ["a"] "b" [] ⟨1, false, 5, [9], [], []⟩ (by decide) (by decide)

/-- Claim C1: when the UDP phase resolves with a response whose
truncated flag is false, the exchange returns that response and no TCP
connection is ever attempted; when the flag is true, exactly one TCP
connection attempt is made, to the resolved address and the same port
as the UDP attempt — whatever the TCP outcome. -/
theorem c1_truncation_controls_tcp (serialize : Packet → List Nat) (host : String)
    (port : Nat) (packet : Packet) (options : Option TimeoutField) (env : ClientEnv)
    (address family : Nat) (r : Packet)
    (hlk : env.lookup = Except.ok (address, family))
    (hudp : (runUdp packet.id env.udpEvents).1 = UdpOutcome.resolved r) :
    (r.truncated = false →
      (clientModel serialize host port packet options env).1 = ClientOutcome.ok r ∧
      (clientModel serialize host port packet options env).2.tcpConnects = []) ∧
    (r.truncated = true →
      (clientModel serialize host port packet options env).2.tcpConnects
        = [(address, port)]) := by
  constructor
  · intro ht
    constructor <;> simp [clientModel, hlk, hudp, ht]
  · intro ht
    cases hc : env.tcpConnect with
    | error e => simp [clientModel, hlk, hudp, ht, hc]
    | ok u =>
      cases htc : (runTcp packet.id false env.tcpEvents).1 <;>
        simp [clientModel, hlk, hudp, ht, hc, htc]

theorem c1_witness :
    (clientModel (fun p => [p.id % 256]) "ns" 53 ⟨7, false, 0, [], [], []⟩ none
        ⟨Except.ok (10, 4), [UdpEvent.datagram (some ⟨7, true, 1, [], [], []⟩)],
          Except.error ⟨"connect fail"⟩, []⟩).2.tcpConnects = [(10, 53)] :=
  (c1_truncation_controls_tcp (fun p => [p.id % 256]) "ns" 53 ⟨7, false, 0, [], [], []⟩
    none
    ⟨Except.ok (10, 4), [UdpEvent.datagram (some ⟨7, true, 1, [], [], []⟩)],
      Except.error ⟨"connect fail"⟩, []⟩
    10 4 ⟨7, true, 1, [], [], []⟩ rfl (by decide)).2 rfl

/-- Claim C2 as the spec states it fails on the source: there is no
try/catch around Packet.parse in the UDP message handler
(src/client.js line 113), so a malformed datagram makes the parse
exception escape the handler uncaught; the exchange does not keep
waiting — a matching datagram arriving right after the malformed one is
never processed and the socket is not closed. -/
theorem c2_malformed_udp_uncaught :
    (clientModel (fun p => [p.id % 256]) "ns" 53 ⟨7, false, 0, [], [], []⟩ none
        ⟨Except.ok (10, 4),
          [UdpEvent.datagram none, UdpEvent.datagram (some ⟨7, false, 0, [], [], []⟩)],
          Except.ok (), []⟩).1 = ClientOutcome.uncaught ∧
    (clientModel (fun p => [p.id % 256]) "ns" 53 ⟨7, false, 0, [], [], []⟩ none
        ⟨Except.ok (10, 4),
          [UdpEvent.datagram none, UdpEvent.datagram (some ⟨7, false, 0, [], [], []⟩)],
          Except.ok (), []⟩).2.udpSocketClosed = false :=
  ⟨rfl, rfl⟩

/-- Claim C3 fails on the source at the TCP success path: the exchange
resolves with the TCP response while `socket.end()` has never been
called on the connection (src/client.js lines 146-153 resolve without
ending the socket), so the TCP connection outlives the exchange.  The
UDP socket of the same exchange was closed. -/
theorem c3_tcp_success_connection_leak :
    (clientModel (fun p => [p.id % 256]) "ns" 53 ⟨7, false, 0, [], [], []⟩ none
        ⟨Except.ok (10, 4), [UdpEvent.datagram (some ⟨7, true, 0, [], [], []⟩)],
          Except.ok (), [TcpEvent.framedPacket ⟨7, false, 0, [], [], []⟩]⟩).1
      = ClientOutcome.ok ⟨7, false, 0, [], [], []⟩ ∧
    (clientModel (fun p => [p.id % 256]) "ns" 53 ⟨7, false, 0, [], [], []⟩ none
        ⟨Except.ok (10, 4), [UdpEvent.datagram (some ⟨7, true, 0, [], [], []⟩)],
          Except.ok (), [TcpEvent.framedPacket ⟨7, false, 0, [], [], []⟩]⟩).2.udpSocketClosed
      = true ∧
    (clientModel (fun p => [p.id % 256]) "ns" 53 ⟨7, false, 0, [], [], []⟩ none
        ⟨Except.ok (10, 4), [UdpEvent.datagram (some ⟨7, true, 0, [], [], []⟩)],
          Except.ok (), [TcpEvent.framedPacket ⟨7, false, 0, [], [], []⟩]⟩).2.tcpConnects
      = [(10, 53)] ∧
    (clientModel (fun p => [p.id % 256]) "ns" 53 ⟨7, false, 0, [], [], []⟩ none
        ⟨Except.ok (10, 4), [UdpEvent.datagram (some ⟨7, true, 0, [], [], []⟩)],
          Except.ok (), [TcpEvent.framedPacket ⟨7, false, 0, [], [], []⟩]⟩).2.tcpEnded
      = false :=
  ⟨rfl, rfl, rfl, rfl⟩

/-- Right shift distributes over bitwise and. -/
theorem and_shiftRight_distrib (x y n : Nat) :
    (x &&& y) >>> n = (x >>> n) &&& (y >>> n) := by
  apply Nat.eq_of_testBit_eq
  intro i
  simp [Nat.testBit_shiftRight, Nat.testBit_and]

/-- For lengths up to 65535, the header bytes written by src/client.js
line 158 are the big-endian base-256 digits of the length. -/
theorem frameHeader_eq (L : Nat) (h : L ≤ 65535) :
    frameHeader L = [L / 256, L % 256] := by
  have h1 : L &&& 0x00ff = L % 256 := by
    have h0 := Nat.and_pow_two_sub_one_eq_mod L 8
    norm_num at h0
    exact h0
  have h2 : (L &&& 0xff00) >>> 8 = L / 256 := by
    rw [and_shiftRight_distrib]
    have e1 : (0xff00 : Nat) >>> 8 = 255 := by decide
    rw [e1]
    have hm := Nat.and_pow_two_sub_one_eq_mod (L >>> 8) 8
    norm_num at hm
    rw [hm, Nat.shiftRight_eq_div_pow]
    norm_num
    omega
  simp [frameHeader, h1, h2]

/-- A list of nonempty chunks whose concatenation is empty is empty. -/
theorem flatten_nil_of_ne_nil {l : List (List Nat)}
    (hne : ∀ c ∈ l, c ≠ []) (h : l.flatten = []) : l = [] := by
  cases l with
  | nil => rfl
  | cons a t =>
    rw [List.flatten_eq_nil_iff] at h
    exact absurd (h a (by simp)) (hne a (by simp))

/-- The 16-bit big-endian read of any two-byte buffered piece of the
framed stream recovers the message length. -/
theorem readUInt16BE_stream (msg t u : List Nat)
    (h : t ++ u = msg.length / 256 :: msg.length % 256 :: msg)
    (hlen : 2 ≤ t.length) :
    readUInt16BE t = msg.length := by
  cases t with
  | nil => simp at hlen
  | cons a t1 =>
    cases t1 with
    | nil => simp at hlen
    | cons c t2 =>
      simp only [List.cons_append, List.cons.injEq] at h
      simp only [readUInt16BE, h.1, h.2.1]
      omega

/-- One data event that still leaves the single framed message
incomplete only grows the buffer and records the length once two bytes
are available. -/
theorem onData_grow (msg p b suf : List Nat) (hb : b ≠ [])
    (happ : (p ++ b) ++ suf = msg.length / 256 :: msg.length % 256 :: msg)
    (hlt : (p ++ b).length < 2 + msg.length) :
    onData ⟨p, if 2 ≤ p.length then some msg.length else none⟩ b
      = (⟨p ++ b, if 2 ≤ (p ++ b).length then some msg.length else none⟩, none) := by
  have hbpos : 0 < b.length := List.length_pos.mpr hb
  have hpblen : (p ++ b).length = p.length + b.length := List.length_append p b
  by_cases hp : 2 ≤ p.length
  · have hL : msg.length ≠ 0 := by omega
    have hpb2 : 2 ≤ p.length + b.length := by omega
    have hnoext : ¬ (msg.length + 2 ≤ p.length + b.length) := by omega
    simp [onData, hp, hL, hnoext, hpb2]
  · by_cases hpb2 : 2 ≤ (p ++ b).length
    · have hre : readUInt16BE (p ++ b) = msg.length :=
        readUInt16BE_stream msg (p ++ b) suf happ hpb2
      have hpb2s : 2 ≤ p.length + b.length := by omega
      have hnlt : ¬ (p.length + b.length < 2) := by omega
      have hnoext : ¬ (msg.length + 2 ≤ p.length + b.length) := by omega
      simp [onData, hp, hpb2s, hnlt, hre, hnoext]
    · have hlt2 : p.length + b.length < 2 := by omega
      have hnle : ¬ (2 ≤ p.length + b.length) := by omega
      simp [onData, hp, hlt2, hnle]

/-- The data event that completes the single framed message emits
exactly the message body and drops only the body length from the
buffer. -/
theorem onData_final (msg p b : List Nat) (hb : b ≠ [])
    (hpb : p ++ b = msg.length / 256 :: msg.length % 256 :: msg)
    (hlt : p.length < 2 + msg.length) :
    onData ⟨p, if 2 ≤ p.length then some msg.length else none⟩ b
      = (⟨(msg.length / 256 :: msg.length % 256 :: msg).drop msg.length, none⟩,
         some msg) := by
  have hbpos : 0 < b.length := List.length_pos.mpr hb
  have hpblen : (p ++ b).length = p.length + b.length := List.length_append p b
  have hlenpb : (p ++ b).length = 2 + msg.length := by
    have h0 := congrArg List.length hpb
    simp only [List.length_append, List.length_cons] at h0 ⊢
    omega
  have hext : msg.length + 2 ≤ p.length + b.length := by omega
  have hdrop2 : (p ++ b).drop 2 = msg := by rw [hpb]; rfl
  have hdropL : (p ++ b).drop msg.length
      = (msg.length / 256 :: msg.length % 256 :: msg).drop msg.length := by rw [hpb]
  by_cases hp : 2 ≤ p.length
  · have hL : msg.length ≠ 0 := by omega
    simp [onData, hp, hL, hext, hdrop2, hdropL, List.take_length]
  · have hnlt : ¬ (p.length + b.length < 2) := by omega
    have hre : readUInt16BE (p ++ b) = msg.length := by
      apply readUInt16BE_stream msg (p ++ b) []
      · simpa using hpb
      · omega
    simp [onData, hp, hnlt, hre, hext, hdrop2, hdropL, List.take_length]

/-- Processing any nonempty-chunk splitting of the remainder of one
framed message from a partial-prefix state yields exactly the message. -/
theorem runData_single_aux (msg : List Nat) :
    ∀ (chunks : List (List Nat)) (p : List Nat),
      (∀ c ∈ chunks, c ≠ []) →
      p ++ chunks.flatten = msg.length / 256 :: msg.length % 256 :: msg →
      p.length < 2 + msg.length →
      runData ⟨p, if 2 ≤ p.length then some msg.length else none⟩ chunks
        = (⟨(msg.length / 256 :: msg.length % 256 :: msg).drop msg.length, none⟩, [msg])
  | [], p, hne, hflat, hlt => by
      exfalso
      rw [List.flatten_nil, List.append_nil] at hflat
      rw [hflat] at hlt
      simp only [List.length_cons] at hlt
      omega
  | b :: rest, p, hne, hflat, hlt => by
      have hb : b ≠ [] := hne b (by simp)
      have hflat2 : (p ++ b) ++ rest.flatten
          = msg.length / 256 :: msg.length % 256 :: msg := by
        simpa [List.append_assoc] using hflat
      by_cases hcase : (p ++ b).length < 2 + msg.length
      · have hstep := onData_grow msg p b rest.flatten hb hflat2 hcase
        have ih := runData_single_aux msg rest (p ++ b)
          (fun c hc => hne c (List.mem_cons_of_mem _ hc)) hflat2 hcase
        simp only [runData, hstep]
        rw [ih]
        simp
      · have hlen : (p ++ b).length + rest.flatten.length = 2 + msg.length := by
          have h0 := congrArg List.length hflat2
          simp only [List.length_append, List.length_cons] at h0 ⊢
          omega
        have hrest0 : rest.flatten.length = 0 := by omega
        have hrestnil : rest.flatten = [] := List.length_eq_zero.mp hrest0
        have hpb : p ++ b = msg.length / 256 :: msg.length % 256 :: msg := by
          simpa [hrestnil] using hflat2
        have hrest : rest = [] := flatten_nil_of_ne_nil
          (fun c hc => hne c (List.mem_cons_of_mem _ hc)) hrestnil
        subst hrest
        have hstep := onData_final msg p b hb hpb hlt
        simp [runData, hstep]

/-- Claim C4 back-to-back counterexample: the streams of two framed
one-byte messages [170] and [171] delivered back to back make the
reassembler emit the first message and never the second — after a frame
the source keeps the last two bytes of the frame in the buffer
(`buffer.slice(packetLength)` instead of `packetLength + 2`) and
misreads the next length from them. -/
theorem c4_back_to_back_lost :
    (runData ⟨[], none⟩ [frameHeader 1 ++ [170], frameHeader 1 ++ [171]]).2 = [[170]] ∧
    [171] ∉ (runData ⟨[], none⟩ [frameHeader 1 ++ [170], frameHeader 1 ++ [171]]).2 := by
  decide

/-- Claim C4 (amended): for a single framed message of length up to
65535, feeding the 2-byte big-endian length header followed by the
message bytes to the reassembler yields exactly the original message
bytes, for every way of splitting the stream into nonempty partial
reads — including the header split across arrivals. -/
theorem c4_single_message_roundtrip (msg : List Nat) (chunks : List (List Nat))
    (hmax : msg.length ≤ 65535)
    (hne : ∀ c ∈ chunks, c ≠ [])
    (hflat : chunks.flatten = frameHeader msg.length ++ msg) :
    (runData ⟨[], none⟩ chunks).2 = [msg] := by
  rw [frameHeader_eq msg.length hmax] at hflat
  have h := runData_single_aux msg chunks [] hne (by simpa using hflat)
    (by simp only [List.length_nil]; omega)
  have h0 : (⟨[], if 2 ≤ ([] : List Nat).length then some msg.length else none⟩
      : StreamBuf) = ⟨[], none⟩ := by simp
  rw [h0] at h
  rw [h]

theorem c4_witness :
    (runData ⟨[], none⟩ [[0], [3, 5], [6, 7]]).2 = [[5, 6, 7]] :=
  c4_single_message_roundtrip [5, 6, 7] [[0], [3, 5], [6, 7]] (by decide) (by decide)
    (by decide)

/-- Claim C5 as stated is false: on a truncated exchange the source
serializes the query twice — once on line 101 for UDP and again on
line 155 for TCP — not exactly once. -/
theorem c5_serialize_twice :
    (clientModel (fun p => [p.id % 256]) "ns" 53 ⟨7, false, 0, [], [], []⟩ none
        ⟨Except.ok (10, 4), [UdpEvent.datagram (some ⟨7, true, 0, [], [], []⟩)],
          Except.ok (), [TcpEvent.framedPacket ⟨7, false, 0, [], [], []⟩]⟩).2.serializeCount
      = 2 ∧ (2 : Nat) ≠ 1 :=
  ⟨rfl, by decide⟩

/-- Claim C5 (amended): the query is serialized once for the UDP send
and a second time for the TCP send when escalation occurs; since
serialization is a pure function of the query, both transports carry
the same serialized bytes — the UDP datagram is serialize(query) and
the TCP writes are the 2-byte header followed by serialize(query). -/
theorem c5_same_bytes_both_transports (serialize : Packet → List Nat) (host : String)
    (port : Nat) (packet : Packet) (options : Option TimeoutField) (env : ClientEnv)
    (address family : Nat) (r : Packet)
    (hlk : env.lookup = Except.ok (address, family))
    (hudp : (runUdp packet.id env.udpEvents).1 = UdpOutcome.resolved r) :
    (clientModel serialize host port packet options env).2.udpSent
        = some (serialize packet, port, address) ∧
    (r.truncated = false →
      (clientModel serialize host port packet options env).2.serializeCount = 1 ∧
      (clientModel serialize host port packet options env).2.tcpWrites = []) ∧
    (r.truncated = true → env.tcpConnect = Except.ok () →
      (clientModel serialize host port packet options env).2.serializeCount = 2 ∧
      (clientModel serialize host port packet options env).2.tcpWrites
        = [frameHeader (serialize packet).length, serialize packet]) := by
  refine ⟨?_, fun ht => ?_, fun ht hc => ?_⟩
  · cases htr : r.truncated with
    | false => simp [clientModel, hlk, hudp, htr]
    | true =>
      cases hc : env.tcpConnect with
      | error e => simp [clientModel, hlk, hudp, htr, hc]
      | ok u =>
        cases htc : (runTcp packet.id false env.tcpEvents).1 <;>
          simp [clientModel, hlk, hudp, htr, hc, htc]
  · constructor <;> simp [clientModel, hlk, hudp, ht]
  · cases htc : (runTcp packet.id false env.tcpEvents).1 <;>
      constructor <;> simp [clientModel, hlk, hudp, ht, hc, htc]

theorem c5_witness :
    (clientModel (fun p => [p.id % 256]) "ns" 53 ⟨7, false, 0, [], [], []⟩ none
        ⟨Except.ok (10, 4), [UdpEvent.datagram (some ⟨7, true, 0, [], [], []⟩)],
          Except.ok (), [TcpEvent.framedPacket ⟨7, false, 0, [], [], []⟩]⟩).2.udpSent
      = some ([7], 53, 10) ∧
    (clientModel (fun p => [p.id % 256]) "ns" 53 ⟨7, false, 0, [], [], []⟩ none
        ⟨Except.ok (10, 4), [UdpEvent.datagram (some ⟨7, true, 0, [], [], []⟩)],
          Except.ok (), [TcpEvent.framedPacket ⟨7, false, 0, [], [], []⟩]⟩).2.tcpWrites
      = [[0, 1], [7]] :=
  ⟨(c5_same_bytes_both_transports (fun p => [p.id % 256]) "ns" 53
      ⟨7, false, 0, [], [], []⟩ none
      ⟨Except.ok (10, 4), [UdpEvent.datagram (some ⟨7, true, 0, [], [], []⟩)],
        Except.ok (), [TcpEvent.framedPacket ⟨7, false, 0, [], [], []⟩]⟩
      10 4 ⟨7, true, 0, [], [], []⟩ rfl (by decide)).1,
   ((c5_same_bytes_both_transports (fun p => [p.id % 256]) "ns" 53
      ⟨7, false, 0, [], [], []⟩ none
      ⟨Except.ok (10, 4), [UdpEvent.datagram (some ⟨7, true, 0, [], [], []⟩)],
        Except.ok (), [TcpEvent.framedPacket ⟨7, false, 0, [], [], []⟩]⟩
      10 4 ⟨7, true, 0, [], [], []⟩ rfl (by decide)).2.2 rfl rfl).2⟩

/-- Claim C8 as stated is false: the source accepts any integer via
Number.isInteger, including non-positive ones.  With
options.timeout = -1 — an integer that is not positive — the effective
timeout is -1, not 3000. -/
theorem c8_nonpositive_timeout_accepted :
    (clientModel (fun p => [p.id % 256]) "ns" 53 ⟨7, false, 0, [], [], []⟩
        (some (TimeoutField.int (-1)))
        ⟨Except.ok (10, 4), [UdpEvent.timerFire], Except.ok (), []⟩).2.timeoutUsed = -1 ∧
      ¬ (0 : Int) < -1 ∧ ((-1 : Int) ≠ 3000) :=
  ⟨rfl, by decide, by decide⟩

/-- Claim C8 (amended): the effective timeout is the caller-supplied
option whenever it is an integer — positive or not — and 3000 exactly
when the option is absent or not an integer. -/
theorem c8_integer_timeout (serialize : Packet → List Nat) (host : String)
    (port : Nat) (packet : Packet) (options : Option TimeoutField) (env : ClientEnv) :
    (clientModel serialize host port packet options env).2.timeoutUsed
      = match options with
        | some (TimeoutField.int i) => i
        | some TimeoutField.missing => 3000
        | some TimeoutField.notInteger => 3000
        | none => 3000 := by
  rw [clientModel_timeoutUsed]
  cases options with
  | none => rfl
  | some f => cases f <;> rfl

/-- Claim C9: the forwarder invokes the client with no options
argument, so every client call of every forwarder run uses the default
3000 ms timeout for each phase. -/
theorem c9_forward_default_timeout (serialize : Packet → List Nat)
    (envs : String → ClientEnv) (fwd : ForwardersArg) (req : Packet) (res : ResCtx) :
    ((forward serialize envs fwd req res).2.all fun tr => tr.timeoutUsed == 3000) = true :=
  forwardGo_default_timeout serialize envs req res (normalizeForwarders fwd)

/-- Claim C10: a forwarder constructed with an empty server list
immediately invokes the error continuation with the "No more servers
to try" error, with the response object unmodified and no client call
made (the trace list is empty). -/
theorem c10_empty_server_list (serialize : Packet → List Nat)
    (envs : String → ClientEnv) (req : Packet) (res : ResCtx) :
    forward serialize envs (ForwardersArg.list []) req res
      = (ForwardOutcome.nextErr res ⟨"No more servers to try"⟩, []) := rfl

end NSF
